import Mathlib

/-!
Verification of the calendar synchronization and OAuth credential lifecycle
engine (Google Calendar integration): a shallow embedding of
`src/lib/google-calendar.ts` and the calendar API routes
(`respond`, `callback`, `disconnect`), with theorems about credential
lookup/refresh, event creation and sync ordering, attendee fan-out,
response sync, and the authorization handshake.

External effects (the Google API, the OAuth token endpoint, JSON decoding
of the state parameter) are modelled as oracles supplied in an environment
record; the local relational store (users, events, attendees, credentials)
is explicit state.  Each synchronization operation additionally produces a
trace of the externally visible actions it performed, in order.
-/

namespace CalendarSync

/-- A user row (`User` in the prisma schema): id plus nullable email. -/
structure GUser where
  id : String
  email : Option String
  deriving Repr, DecidableEq

/-- A `GoogleCalendarCredential` row: one per user (`userId` unique). -/
structure Credential where
  userId : String
  accessToken : String
  refreshToken : String
  expiryDate : Int
  deriving Repr, DecidableEq

/-- A `CalendarEvent` row; `googleEventId` is the optional external id. -/
structure CalendarEvent where
  id : String
  title : String
  description : Option String
  location : Option String
  creatorId : String
  googleEventId : Option String
  deriving Repr, DecidableEq

/-- An `EventAttendee` row, keyed by the `(eventId, userId)` pair. -/
structure EventAttendee where
  eventId : String
  userId : String
  responseStatus : String
  deriving Repr, DecidableEq

/-- The local relational store owned by prisma. -/
structure Store where
  users : List GUser
  credentials : List Credential
  events : List CalendarEvent
  attendees : List EventAttendee
  deriving Repr, DecidableEq

/-- `prisma.googleCalendarCredential.findUnique({ where: { userId } })`. -/
def findCredential (s : Store) (userId : String) : Option Credential :=
  s.credentials.find? (fun c => c.userId == userId)

/-- `prisma.user.findUnique({ where: { id } })`. -/
def findUser (s : Store) (userId : String) : Option GUser :=
  s.users.find? (fun u => u.id == userId)

/-- The email of a user looked up by id (nullable). -/
def userEmail (s : Store) (userId : String) : Option String :=
  match findUser s userId with
  | none => none
  | some u => u.email

/-- JavaScript truthiness of a nullable string: null and "" are falsy. -/
def strTruthy : Option String → Bool
  | none => false
  | some s => !s.isEmpty

/-- JavaScript falsiness of a nullable string. -/
def strFalsy (o : Option String) : Bool := !strTruthy o

/-- The token set returned by `oauth2Client.refreshAccessToken()`. -/
structure RefreshedCreds where
  access_token : String
  refresh_token : Option String
  expiry_date : Int
  deriving Repr, DecidableEq

/-- Externally visible actions of the sync engine, recorded in order. -/
inductive Action where
  /-- `prisma.calendarEvent.create` of the local event (with attendees). -/
  | localCreate (eventId : String)
  /-- `oauth2Client.refreshAccessToken()` issued for this user's token. -/
  | refreshCall (userId : String)
  /-- `calendar.events.insert` on the organizer's calendar. -/
  | providerInsert
  /-- `prisma.calendarEvent.update` writing `googleEventId` back. -/
  | writeExternalId (eventId : String) (googleId : String)
  /-- propagation of the event to this attendee's calendar begins. -/
  | attendeeSync (userId : String)
  /-- `attendeeCalendar.events.import` issued for this attendee. -/
  | importCall (userId : String)
  deriving Repr, DecidableEq

/-- `prisma.googleCalendarCredential.update` performed after a refresh:
only `accessToken` and `expiryDate` are written (see lines 58–64 of
`google-calendar.ts`); `refreshToken` is not part of the update data. -/
def refreshPersist (s : Store) (userId : String) (accessToken : String)
    (expiryDate : Int) : Store :=
  { s with credentials := s.credentials.map (fun c =>
      if c.userId == userId then
        { c with accessToken := accessToken, expiryDate := expiryDate }
      else c) }

/-- `getCalendarClient(userId)` from `google-calendar.ts`: looks up the
credential row (throws when absent), refreshes when
`credentials.expiryDate.getTime() < Date.now()` via the provider
(`refreshResult` oracle), and persists the refreshed access token and
expiry.  Returns `Except.error ()` for a thrown error, otherwise the
updated store; the second component is the trace (one `refreshCall` per
refresh attempt). -/
def getCalendarClientT (s : Store) (userId : String) (now : Int)
    (refreshResult : Except Unit RefreshedCreds) :
    Except Unit Store × List Action :=
  match findCredential s userId with
  | none => (Except.error (), [])
  | some cred =>
    if cred.expiryDate < now then
      match refreshResult with
      | Except.error _ => (Except.error (), [Action.refreshCall userId])
      | Except.ok rc =>
        (Except.ok (refreshPersist s userId rc.access_token rc.expiry_date),
         [Action.refreshCall userId])
    else
      (Except.ok s, [])

/-- The event object returned by `calendar.events.insert` (the fields the
code reads: `id` and `iCalUID`, both nullable). -/
structure GoogleEvent where
  id : Option String
  iCalUID : Option String
  deriving Repr, DecidableEq

/-- The `eventData` argument of `createCalendarEvent`, together with the
row id the database assigns to the new event (`newEvent.id`). -/
structure EventInput where
  id : String
  title : String
  description : Option String
  location : Option String
  attendeeIds : List String
  deriving Repr, DecidableEq

/-- Oracles for the external world during `createCalendarEvent`: the
outcome of a token refresh per user, of the organizer-side
`events.insert`, and of each attendee-side `events.import`. -/
structure CreateEnv where
  now : Int
  refreshResult : String → Except Unit RefreshedCreds
  insertResult : Except Unit GoogleEvent
  importResult : String → Except Unit Unit

/-- The local `CalendarEvent` row created first (lines 135–160);
`googleEventId` starts unset. -/
def newEventOf (creatorId : String) (input : EventInput) : CalendarEvent :=
  { id := input.id, title := input.title, description := input.description,
    location := input.location, creatorId := creatorId,
    googleEventId := none }

/-- The nested-create `EventAttendee` rows: one per `attendeeIds` entry,
each starting with `responseStatus: 'PENDING'`. -/
def newAttendeesOf (input : EventInput) : List EventAttendee :=
  input.attendeeIds.map (fun userId =>
    { eventId := input.id, userId := userId, responseStatus := "PENDING" })

/-- The store after the initial `prisma.calendarEvent.create`. -/
def storeAfterCreate (s : Store) (creatorId : String) (input : EventInput) :
    Store :=
  { s with events := s.events ++ [newEventOf creatorId input],
           attendees := s.attendees ++ newAttendeesOf input }

/-- `prisma.calendarEvent.update({ where: { id }, data: { googleEventId } })`. -/
def setGoogleEventId (s : Store) (eventId googleId : String) : Store :=
  { s with events := s.events.map (fun e =>
      if e.id == eventId then { e with googleEventId := some googleId }
      else e) }

/-- The attendee fan-out loop (lines 238–292): for each attendee, skip the
creator; look up the attendee's credential row; when it exists and the
organizer-side event has an `iCalUID`, obtain the attendee's calendar
client (possibly refreshing) and issue the import.  Every per-attendee
error is caught at line 288 and the loop continues. -/
def attendeePropagation (creatorId : String) (gev : GoogleEvent)
    (env : CreateEnv) : Store → List EventAttendee → Store × List Action
  | s, [] => (s, [])
  | s, a :: rest =>
    if a.userId == creatorId then
      attendeePropagation creatorId gev env s rest
    else
      match findCredential s a.userId, gev.iCalUID with
      | some _, some _ =>
        match getCalendarClientT s a.userId env.now
            (env.refreshResult a.userId) with
        | (Except.error _, trc) =>
          -- the thrown client error is caught; continue with the rest
          let (s2, tr2) := attendeePropagation creatorId gev env s rest
          (s2, (Action.attendeeSync a.userId :: trc) ++ tr2)
        | (Except.ok s1, trc) =>
          -- `events.import` is issued; success and failure both continue
          match env.importResult a.userId with
          | Except.error _ =>
            let (s2, tr2) := attendeePropagation creatorId gev env s1 rest
            (s2, (Action.attendeeSync a.userId :: trc)
              ++ [Action.importCall a.userId] ++ tr2)
          | Except.ok _ =>
            let (s2, tr2) := attendeePropagation creatorId gev env s1 rest
            (s2, (Action.attendeeSync a.userId :: trc)
              ++ [Action.importCall a.userId] ++ tr2)
      | _, _ =>
        attendeePropagation creatorId gev env s rest

/-- What `createCalendarEvent` produces: the value returned to the caller
(`Except.error` for a thrown error), the final store, and the ordered
trace of actions. -/
structure CreateOutcome where
  result : Except Unit (CalendarEvent × List EventAttendee)
  store : Store
  trace : List Action
  deriving Repr

/-- `createCalendarEvent(creatorId, eventData)` from `google-calendar.ts`:
creates the local event row with its attendee rows first; then, inside a
try/catch that swallows every sync error (line 293), checks the creator's
credential row (absent means return the event, skipping sync), obtains the
organizer's calendar client, inserts the event into the organizer's
calendar, writes `googleEventId` back when the provider returned an id,
and fans the event out to the attendees.  The created event is returned
in every one of those paths. -/
def createCalendarEvent (s : Store) (creatorId : String)
    (input : EventInput) (env : CreateEnv) : CreateOutcome :=
  let newEvent := newEventOf creatorId input
  let newAtts := newAttendeesOf input
  let s1 := storeAfterCreate s creatorId input
  let tr0 := [Action.localCreate input.id]
  match findCredential s1 creatorId with
  | none => ⟨Except.ok (newEvent, newAtts), s1, tr0⟩
  | some _ =>
    match getCalendarClientT s1 creatorId env.now
        (env.refreshResult creatorId) with
    | (Except.error _, trc) =>
      -- getCalendarClient threw; caught at line 293, event still returned
      ⟨Except.ok (newEvent, newAtts), s1, tr0 ++ trc⟩
    | (Except.ok s2, trc) =>
      match env.insertResult with
      | Except.error _ =>
        -- events.insert threw; caught at line 293, event still returned
        ⟨Except.ok (newEvent, newAtts), s2,
          tr0 ++ trc ++ [Action.providerInsert]⟩
      | Except.ok gev =>
        let (s3, tr3) :=
          match gev.id with
          | some gid =>
            (setGoogleEventId s2 input.id gid,
             [Action.writeExternalId input.id gid])
          | none => (s2, [])
        let (s4, tr4) := attendeePropagation creatorId gev env s3 newAtts
        ⟨Except.ok (newEvent, newAtts), s4,
          tr0 ++ trc ++ [Action.providerInsert] ++ tr3 ++ tr4⟩

/-- A Google-side attendee entry as read from `event.attendees` in
`updateGoogleCalendarAttendance`. -/
structure GoogleAttendee where
  email : Option String
  responseStatus : Option String
  deriving Repr, DecidableEq

/-- The local-to-provider response vocabulary map (lines 514–517). -/
def toGoogleResponseStatus (responseStatus : String) : String :=
  if responseStatus == "ACCEPTED" then "accepted"
  else if responseStatus == "DECLINED" then "declined"
  else if responseStatus == "TENTATIVE" then "tentative"
  else "needsAction"

/-- The attendee list sent in the `events.patch` request (lines 520–528):
the fetched list with the entry matching `attendeeEmail` rewritten to the
mapped response status, all other entries returned as-is. -/
def updatedAttendees (attendees : List GoogleAttendee)
    (attendeeEmail : String) (responseStatus : String) :
    List GoogleAttendee :=
  attendees.map (fun a =>
    if a.email == some attendeeEmail then
      { a with responseStatus := some (toGoogleResponseStatus responseStatus) }
    else a)

/-- The JSON result of `POST /api/calendar/respond` (after the session is
resolved to `userId`; the 401 paths are outside this model). -/
inductive RespondOutcome where
  /-- 400: missing eventId/response or invalid response value. -/
  | badRequest
  /-- 404: event not found. -/
  | eventNotFound
  /-- 403: requester is not an attendee of the event. -/
  | notAttendee
  /-- 200: `{success, attendee: {response}, googleUpdateResult}`. -/
  | ok (responseStatus : String) (googleUpdateResult : String)
  deriving Repr, DecidableEq

/-- Oracle for the `updateGoogleCalendarAttendance` call made by the
respond route: `Except.error` when it throws (caught at line 102),
`Except.ok none` when it returns null, `Except.ok (some ())` when it
returns patch data. -/
structure RespondEnv where
  googleUpdate : Except Unit (Option Unit)

/-- `POST /api/calendar/respond` (part_011 lines 36–117), after session
resolution: validates the body, finds the event and the requester's
attendee row, commits the local status update, and then — only when the
event has a truthy `googleEventId` and the attendee's email is truthy —
attempts the external update, whose failure or null result degrades the
reported outcome to `not_updated` without touching the local row.
Returns the outcome, the resulting store, and whether an external call
was attempted.  `respondLocalUpdate` is the committed local mutation
(`prisma.eventAttendee.update` at lines 85–89). -/
def respondLocalUpdate (s : Store) (userId eventId response : String) :
    Store :=
  { s with attendees := s.attendees.map (fun a =>
      if a.eventId == eventId && a.userId == userId then
        { a with responseStatus := response }
      else a) }

/-- `POST /api/calendar/respond` main flow (see the comment above). -/
def respondPOST (s : Store) (userId eventId response : String)
    (env : RespondEnv) : RespondOutcome × Store × Bool :=
  if eventId.isEmpty || response.isEmpty then
    (RespondOutcome.badRequest, s, false)
  else if !(["ACCEPTED", "DECLINED", "TENTATIVE"].contains response) then
    (RespondOutcome.badRequest, s, false)
  else
    match s.events.find? (fun e => e.id == eventId) with
    | none => (RespondOutcome.eventNotFound, s, false)
    | some event =>
      match s.attendees.find? (fun a =>
          a.eventId == eventId && a.userId == userId) with
      | none => (RespondOutcome.notAttendee, s, false)
      | some _ =>
        let s2 : Store := respondLocalUpdate s userId eventId response
        if strTruthy event.googleEventId && strTruthy (userEmail s userId)
        then
          match env.googleUpdate with
          | Except.ok (some _) =>
            (RespondOutcome.ok response "success", s2, true)
          | Except.ok none =>
            (RespondOutcome.ok response "not_updated", s2, true)
          | Except.error _ =>
            (RespondOutcome.ok response "not_updated", s2, true)
        else
          (RespondOutcome.ok response "not_updated", s2, false)

/-- The JSON result of `POST /api/calendar/disconnect` (after session
resolution and with the credential table present). -/
inductive DisconnectOutcome where
  /-- 200 `{success: true}`. -/
  | success
  /-- 404: no Google Calendar connection found. -/
  | notConnected
  deriving Repr, DecidableEq

/-- `POST /api/calendar/disconnect` (route.ts lines 46–71), after session
resolution: counts the user's credential rows; zero means 404 with the
store untouched, otherwise the rows are deleted and success returned. -/
def disconnectPOST (s : Store) (userId : String) :
    DisconnectOutcome × Store :=
  let count := (s.credentials.filter (fun c => c.userId == userId)).length
  if count == 0 then
    (DisconnectOutcome.notConnected, s)
  else
    (DisconnectOutcome.success,
     { s with credentials :=
        s.credentials.filter (fun c => c.userId != userId) })

/-- The payload decoded from the OAuth `state` parameter
(`JSON.parse(Buffer.from(state, 'base64').toString())`): the two fields
the callback reads, both possibly missing. -/
structure StatePayload where
  userId : Option String
  timestamp : Option Int
  deriving Repr, DecidableEq

/-- JavaScript falsiness of the decoded `timestamp` field: missing or 0. -/
def intFalsy : Option Int → Bool
  | none => true
  | some t => t == 0

/-- State validation in the callback (part_011 lines 209–227): `none` for
a rejected state (decode failure, falsy `userId`, falsy `timestamp`, or
`now - timestamp > 15 * 60 * 1000`), otherwise the userId carried by the
state. -/
def validateState (decoded : Option StatePayload) (now : Int) :
    Option String :=
  match decoded with
  | none => none
  | some st =>
    if strFalsy st.userId then none
    else
      match st.timestamp with
      | none => none
      | some ts =>
        if ts == 0 || now - ts > 15 * 60 * 1000 then none
        else st.userId

/-- The token object returned by `oauth2Client.getToken(code)`: the three
fields the callback reads, each possibly absent. -/
structure TokenResponse where
  access_token : Option String
  refresh_token : Option String
  expiry_date : Option Int
  deriving Repr, DecidableEq

/-- `saveCredentials(userId, tokens)` (part_011 lines 286–325): deletes
any existing credential rows for the user, then inserts a fresh row with
`refreshToken = tokens.refresh_token || ''` and
`expiryDate = tokens.expiry_date ? new Date(tokens.expiry_date)
: new Date(Date.now() + 3600 * 1000)`.  The route has already checked the
access token is truthy, so reading it with a default is never exercised. -/
def saveCredentials (s : Store) (userId : String) (tokens : TokenResponse)
    (now : Int) : Store :=
  let refreshToken :=
    match tokens.refresh_token with
    | some rt => if rt.isEmpty then "" else rt
    | none => ""
  let expiryDate :=
    match tokens.expiry_date with
    | some e => if e == 0 then now + 3600 * 1000 else e
    | none => now + 3600 * 1000
  { s with credentials :=
      s.credentials.filter (fun c => c.userId != userId)
      ++ [{ userId := userId,
            accessToken := tokens.access_token.getD "",
            refreshToken := refreshToken,
            expiryDate := expiryDate }] }

/-- Where `GET /api/calendar/callback` redirects. -/
inductive CallbackOutcome where
  /-- redirect to `/user/profile?error=<kind>`. -/
  | redirectError (kind : String)
  /-- redirect to `/user/profile?calendarConnected=true`. -/
  | connected
  deriving Repr, DecidableEq

/-- Oracles for the callback: the decode of the `state` parameter, the
token exchange, and the current time. -/
structure CallbackEnv where
  now : Int
  decodeState : Option StatePayload
  tokenResult : Except Unit TokenResponse

/-- `GET /api/calendar/callback` (part_011 lines 184–283): handles the
provider error parameter, missing code/state, state validation, token
exchange (rejecting a response without an access token), the
user-existence check, and finally `saveCredentials`.  Returns the
redirect, the resulting store, and whether the code was exchanged. -/
def callbackGET (s : Store) (errorParam codeParam stateParam : Option String)
    (env : CallbackEnv) : CallbackOutcome × Store × Bool :=
  if strTruthy errorParam then
    (CallbackOutcome.redirectError (errorParam.getD ""), s, false)
  else if strFalsy codeParam then
    (CallbackOutcome.redirectError "missing_code", s, false)
  else if strFalsy stateParam then
    (CallbackOutcome.redirectError "missing_state", s, false)
  else
    match validateState env.decodeState env.now with
    | none => (CallbackOutcome.redirectError "invalid_state", s, false)
    | some userId =>
      match env.tokenResult with
      | Except.error _ =>
        (CallbackOutcome.redirectError "token_exchange", s, true)
      | Except.ok tokens =>
        if strFalsy tokens.access_token then
          (CallbackOutcome.redirectError "token_exchange", s, true)
        else
          match findUser s userId with
          | none =>
            (CallbackOutcome.redirectError "user_not_found", s, true)
          | some _ =>
            (CallbackOutcome.connected,
             saveCredentials s userId tokens env.now, true)

/-! ## Helper lemmas -/

/-- Looking up a row in a list where matching rows had their
`responseStatus` rewritten finds the rewritten row. -/
theorem find?_attendee_update (l : List EventAttendee) (eid uid resp : String) :
    (l.map (fun a =>
        if a.eventId == eid && a.userId == uid then
          { a with responseStatus := resp } else a)).find?
      (fun a => a.eventId == eid && a.userId == uid) =
    (l.find? (fun a => a.eventId == eid && a.userId == uid)).map
      (fun a => { a with responseStatus := resp }) := by
  rw [List.find?_map]
  have hp : ((fun a : EventAttendee => a.eventId == eid && a.userId == uid) ∘
      (fun a => if a.eventId == eid && a.userId == uid then
          { a with responseStatus := resp } else a)) =
      (fun a : EventAttendee => a.eventId == eid && a.userId == uid) := by
    funext a
    by_cases h : (a.eventId == eid && a.userId == uid) = true <;>
      simp [Function.comp, h]
  rw [hp]
  cases hf : l.find? (fun a => a.eventId == eid && a.userId == uid) with
  | none => rfl
  | some a =>
    have := List.find?_some hf
    rw [Option.map_some', Option.map_some', if_pos this]

/-- A credential lookup after `refreshPersist` for the same user returns
the stored row with the refreshed access token and expiry. -/
theorem findCredential_refreshPersist_self (s : Store) (u a : String)
    (e : Int) :
    findCredential (refreshPersist s u a e) u =
      (findCredential s u).map
        (fun c => { c with accessToken := a, expiryDate := e }) := by
  show (s.credentials.map _).find? _ = (s.credentials.find? _).map _
  rw [List.find?_map]
  have hp : ((fun c : Credential => c.userId == u) ∘
      (fun c => if c.userId == u then
          { c with accessToken := a, expiryDate := e } else c)) =
      (fun c : Credential => c.userId == u) := by
    funext c
    by_cases h : (c.userId == u) = true <;> simp [Function.comp, h]
  rw [hp]
  cases hf : s.credentials.find? (fun c => c.userId == u) with
  | none => rfl
  | some c =>
    have := List.find?_some hf
    rw [Option.map_some', Option.map_some', if_pos this]

/-- `refreshPersist` rewrites fields of existing rows only, so whether a
credential row exists for any user is unchanged. -/
theorem findCredential_refreshPersist_isSome (s : Store) (u v a : String)
    (e : Int) :
    (findCredential (refreshPersist s u a e) v).isSome =
      (findCredential s v).isSome := by
  show ((s.credentials.map _).find? _).isSome = (s.credentials.find? _).isSome
  rw [List.find?_map]
  have hp : ((fun c : Credential => c.userId == v) ∘
      (fun c => if c.userId == u then
          { c with accessToken := a, expiryDate := e } else c)) =
      (fun c : Credential => c.userId == v) := by
    funext c
    by_cases h : (c.userId == u) = true <;> simp [Function.comp, h]
  rw [hp]
  cases s.credentials.find? (fun c => c.userId == v) <;> rfl

/-! ## C8: response-sync patch is a frame-preserving replacement -/

/-- C8: the attendee list sent in the `events.patch` of
`updateGoogleCalendarAttendance` has exactly the length of the fetched
list, every entry whose email differs from the responding attendee's
email is unchanged (same position, same entry), and when no entry matches
that email the patched list is identical to the fetched one — no new
attendee entry is ever invented. -/
theorem updatedAttendees_frame (l : List GoogleAttendee) (em rs : String) :
    (updatedAttendees l em rs).length = l.length ∧
    (∀ (i : Nat) (a : GoogleAttendee), l[i]? = some a → a.email ≠ some em →
      (updatedAttendees l em rs)[i]? = some a) ∧
    ((∀ a ∈ l, a.email ≠ some em) → updatedAttendees l em rs = l) := by
  refine ⟨by simp [updatedAttendees], ?_, ?_⟩
  · intro i a hget hne
    have hb : (a.email == some em) = false := beq_eq_false_iff_ne.mpr hne
    rw [updatedAttendees, List.getElem?_map, hget, Option.map_some', if_neg]
    simp [hb]
  · intro hall
    unfold updatedAttendees
    conv_rhs => rw [← List.map_id l]
    apply List.map_congr_left
    intro a ha
    have hb : (a.email == some em) = false :=
      beq_eq_false_iff_ne.mpr (hall a ha)
    simp [hb]

/-- Concrete instance of `updatedAttendees_frame`: with no matching email
the patched list equals the fetched one. -/
theorem updatedAttendees_frame_witness :
    updatedAttendees
        [{ email := some "other@x", responseStatus := some "needsAction" }]
        "me@x" "ACCEPTED" =
      [{ email := some "other@x", responseStatus := some "needsAction" }] :=
  (updatedAttendees_frame _ _ _).2.2 (by decide)

/-! ## C9: disconnect semantics and idempotence -/

/-- C9: disconnect returns success and deletes the user's credential rows
when one exists, returns not-found leaving the store unchanged when none
exists, and two consecutive disconnect calls return success then
not-found. -/
theorem disconnectPOST_spec (s : Store) (userId : String) :
    (findCredential s userId = none →
      disconnectPOST s userId = (DisconnectOutcome.notConnected, s)) ∧
    ((findCredential s userId).isSome →
      (disconnectPOST s userId).1 = DisconnectOutcome.success ∧
      (disconnectPOST s userId).2 =
        { s with credentials :=
            s.credentials.filter (fun c => c.userId != userId) } ∧
      disconnectPOST (disconnectPOST s userId).2 userId =
        (DisconnectOutcome.notConnected, (disconnectPOST s userId).2)) := by
  constructor
  · intro h
    have h' : s.credentials.find? (fun c => c.userId == userId) = none := h
    have hfil : s.credentials.filter (fun c => c.userId == userId) = [] :=
      List.filter_eq_nil_iff.mpr (List.find?_eq_none.mp h')
    simp [disconnectPOST, hfil]
  · intro h
    obtain ⟨c, hc⟩ := Option.isSome_iff_exists.mp h
    have hc' : s.credentials.find? (fun c => c.userId == userId) = some c := hc
    have hmem : c ∈ s.credentials := List.mem_of_find?_eq_some hc'
    have hpc : (c.userId == userId) = true :=
      @List.find?_some Credential (fun c => c.userId == userId) c
        s.credentials hc'
    have hne : (s.credentials.filter (fun c => c.userId == userId)).length ≠ 0 := by
      intro hz
      have : s.credentials.filter (fun c => c.userId == userId) = [] :=
        List.length_eq_zero.mp hz
      have : c ∈ ([] : List Credential) := by
        rw [← this]
        exact List.mem_filter.mpr ⟨hmem, hpc⟩
      simp at this
    have hcnt : ((s.credentials.filter
        (fun c => c.userId == userId)).length == 0) = false :=
      beq_eq_false_iff_ne.mpr hne
    have hsecond : ((s.credentials.filter (fun c => c.userId != userId)).filter
        (fun c => c.userId == userId)) = [] := by
      rw [List.filter_eq_nil_iff]
      intro a ha
      have := (List.mem_filter.mp ha).2
      simp only [bne_iff_ne] at this
      simp [this]
    refine ⟨?_, ?_, ?_⟩
    · simp [disconnectPOST, hcnt]
    · simp [disconnectPOST, hcnt]
    · simp [disconnectPOST, hcnt, hsecond]

/-- A store holding a single connected user, for concrete instances. -/
def oneCredStore : Store :=
  { users := [],
    credentials := [{ userId := "u1", accessToken := "at", refreshToken := "rt", expiryDate := 0 }],
    events := [],
    attendees := [] }

/-- Concrete instance of `disconnectPOST_spec`: a connected user's first
disconnect succeeds and the second returns not-found. -/
theorem disconnectPOST_spec_witness :
    (disconnectPOST oneCredStore "u1").1 = DisconnectOutcome.success ∧
    disconnectPOST (disconnectPOST oneCredStore "u1").2 "u1" =
      (DisconnectOutcome.notConnected, (disconnectPOST oneCredStore "u1").2) :=
  ⟨((disconnectPOST_spec oneCredStore "u1").2 (by decide)).1,
   ((disconnectPOST_spec oneCredStore "u1").2 (by decide)).2.2⟩

/-! ## C4: credential absence behaviour of getCalendarClient -/

/-- A store with no rows at all, for concrete instances. -/
def emptyStore : Store :=
  { users := [], credentials := [], events := [], attendees := [] }

/-- C4 counterexample: with no credential row for the user,
`getCalendarClient` throws (`throw new Error('User has not authorized
Google Calendar access')`, modelled as `Except.error`) instead of
returning an explicit absent value. -/
theorem getCalendarClient_absent_throws :
    findCredential emptyStore "u1" = none ∧
    (getCalendarClientT emptyStore "u1" 0 (Except.error ())).1 =
      Except.error () :=
  ⟨rfl, rfl⟩

/-- C4 (amended): for every userId with no Credential row,
`getCalendarClient` throws an error rather than returning an absent
value; absence is nevertheless a valid non-error state for event
creation, because `createCalendarEvent` checks the credential row itself
before any sync and returns the locally created event with no external
call at all. -/
theorem getCalendarClient_absent_spec (s : Store) (userId : String)
    (now : Int) (rr : Except Unit RefreshedCreds) (input : EventInput)
    (env : CreateEnv) (h : findCredential s userId = none) :
    getCalendarClientT s userId now rr = (Except.error (), []) ∧
    createCalendarEvent s userId input env =
      ⟨Except.ok (newEventOf userId input, newAttendeesOf input),
       storeAfterCreate s userId input, [Action.localCreate input.id]⟩ := by
  constructor
  · simp [getCalendarClientT, h]
  · have h1 : findCredential (storeAfterCreate s userId input) userId =
        none := h
    simp [createCalendarEvent, h1]

/-- The event payload used for concrete creation instances. -/
def demoInput : EventInput :=
  { id := "e1", title := "Midterm review", description := none,
    location := none, attendeeIds := ["a1", "a2", "a3"] }

/-- A concrete environment: the insert succeeds with an id and an
iCalUID; every refresh and every import fails. -/
def demoEnv : CreateEnv :=
  { now := 0,
    refreshResult := fun _ => Except.error (),
    insertResult := Except.ok { id := some "g1", iCalUID := some "ical1" },
    importResult := fun _ => Except.error () }

/-- Concrete instance of `getCalendarClient_absent_spec`: user "u2" has
no credential row in `oneCredStore`. -/
theorem getCalendarClient_absent_spec_witness :
    getCalendarClientT oneCredStore "u2" 0 (Except.error ()) =
      (Except.error (), []) ∧
    createCalendarEvent oneCredStore "u2" demoInput demoEnv =
      ⟨Except.ok (newEventOf "u2" demoInput, newAttendeesOf demoInput),
       storeAfterCreate oneCredStore "u2" demoInput,
       [Action.localCreate demoInput.id]⟩ :=
  getCalendarClient_absent_spec oneCredStore "u2" 0 (Except.error ())
    demoInput demoEnv rfl

/-! ## C5: refresh of an expired credential -/

/-- A store holding a single credential that expired at time 50. -/
def expiredCredStore : Store :=
  { users := [],
    credentials := [{ userId := "u1", accessToken := "at1", refreshToken := "rt1", expiryDate := 50 }],
    events := [],
    attendees := [] }

/-- A refresh response in which the provider returned a new refresh
token. -/
def refreshRt2 : RefreshedCreds :=
  { access_token := "at2", refresh_token := some "rt2", expiry_date := 200 }

/-- C5 counterexample: refreshing the expired credential with a provider
response carrying the new refresh token "rt2" leaves the stored refresh
token at its old value "rt1" — the provider-returned refresh token is
NOT persisted, contradicting the claimed replacement. -/
theorem getCalendarClient_refresh_no_rotation :
    (findCredential
        ((getCalendarClientT expiredCredStore "u1" 100
            (Except.ok refreshRt2)).1.toOption.getD expiredCredStore)
        "u1").map Credential.refreshToken = some "rt1" ∧
    refreshRt2.refresh_token = some "rt2" ∧
    ("rt1" : String) ≠ "rt2" :=
  ⟨rfl, rfl, by decide⟩

/-- C5 (amended): for every Credential whose expiry lies in the past, the
next `getCalendarClient` call triggers exactly one refresh call against
the provider and persists the provider's new access token together with
the provider-returned expiry; the stored refresh token is always retained
unchanged, even when the provider returned a new one. -/
theorem getCalendarClient_refresh_spec (s : Store) (userId : String)
    (now : Int) (cred : Credential) (rc : RefreshedCreds)
    (hfind : findCredential s userId = some cred)
    (hexp : cred.expiryDate < now) :
    (getCalendarClientT s userId now (Except.ok rc)).2 =
      [Action.refreshCall userId] ∧
    (getCalendarClientT s userId now (Except.ok rc)).1 =
      Except.ok (refreshPersist s userId rc.access_token rc.expiry_date) ∧
    findCredential (refreshPersist s userId rc.access_token rc.expiry_date)
        userId =
      some { cred with accessToken := rc.access_token,
                       expiryDate := rc.expiry_date } ∧
    ({ cred with accessToken := rc.access_token,
                 expiryDate := rc.expiry_date } : Credential).refreshToken =
      cred.refreshToken := by
  have h1 : getCalendarClientT s userId now (Except.ok rc) =
      (Except.ok (refreshPersist s userId rc.access_token rc.expiry_date),
       [Action.refreshCall userId]) := by
    simp [getCalendarClientT, hfind, hexp]
  have hfind' : s.credentials.find? (fun c => c.userId == userId) =
      some cred := hfind
  have hpc : (cred.userId == userId) = true :=
    @List.find?_some Credential (fun c => c.userId == userId) cred
      s.credentials hfind'
  refine ⟨by rw [h1], by rw [h1], ?_, rfl⟩
  rw [findCredential_refreshPersist_self, hfind, Option.map_some']

/-- Concrete instance of `getCalendarClient_refresh_spec` on the expired
credential store. -/
theorem getCalendarClient_refresh_spec_witness :
    (getCalendarClientT expiredCredStore "u1" 100 (Except.ok refreshRt2)).2 =
      [Action.refreshCall "u1"] ∧
    (getCalendarClientT expiredCredStore "u1" 100 (Except.ok refreshRt2)).1 =
      Except.ok (refreshPersist expiredCredStore "u1"
        refreshRt2.access_token refreshRt2.expiry_date) ∧
    findCredential (refreshPersist expiredCredStore "u1"
        refreshRt2.access_token refreshRt2.expiry_date) "u1" =
      some { userId := "u1", accessToken := "at2", refreshToken := "rt1", expiryDate := 200 } ∧
    ({ userId := "u1", accessToken := "at2", refreshToken := "rt1", expiryDate := 200 } : Credential).refreshToken = "rt1" :=
  getCalendarClient_refresh_spec expiredCredStore "u1" 100
    { userId := "u1", accessToken := "at1", refreshToken := "rt1", expiryDate := 50 }
    refreshRt2 rfl (by decide)

/-! ## C6: respond commits locally first, external sync is best-effort -/

/-- C6: for every respond request by an attendee of an existing event
(valid response value, event found, requester among its attendees), the
route returns success carrying the requested status; the resulting store
is exactly the local update — independent of the external oracle, so an
external-sync failure never reverts it; the attendee row afterwards holds
the requested status; and when the event has no truthy external id or the
attendee's email is not truthy, no external call is attempted and the
reported sync outcome is the distinct "not_updated" value. -/
theorem respondPOST_local_spec (s : Store) (userId eventId response : String)
    (env : RespondEnv) (event : CalendarEvent)
    (heid : eventId.isEmpty = false)
    (hresp : (["ACCEPTED", "DECLINED", "TENTATIVE"].contains response) = true)
    (hev : s.events.find? (fun e => e.id == eventId) = some event)
    (hatt : (s.attendees.find? (fun a =>
        a.eventId == eventId && a.userId == userId)).isSome) :
    (∃ sync, (respondPOST s userId eventId response env).1 =
      RespondOutcome.ok response sync) ∧
    (respondPOST s userId eventId response env).2.1 =
      respondLocalUpdate s userId eventId response ∧
    (∀ a0 : EventAttendee, s.attendees.find? (fun a =>
        a.eventId == eventId && a.userId == userId) = some a0 →
      (respondPOST s userId eventId response env).2.1.attendees.find?
          (fun a => a.eventId == eventId && a.userId == userId) =
        some { a0 with responseStatus := response }) ∧
    (strTruthy event.googleEventId = false ∨
        strTruthy (userEmail s userId) = false →
      (respondPOST s userId eventId response env).2.2 = false ∧
      (respondPOST s userId eventId response env).1 =
        RespondOutcome.ok response "not_updated") := by
  obtain ⟨a0, hatt'⟩ := Option.isSome_iff_exists.mp hatt
  have hmem : response ∈ (["ACCEPTED", "DECLINED", "TENTATIVE"] :
      List String) := by simpa using hresp
  have hrne : response.isEmpty = false := by
    have hm := hmem
    simp only [List.mem_cons, List.mem_singleton, List.not_mem_nil,
      or_false] at hm
    rcases hm with h | h | h <;> subst h <;> rfl
  have hkey : respondPOST s userId eventId response env =
      (if strTruthy event.googleEventId && strTruthy (userEmail s userId)
       then
         match env.googleUpdate with
         | Except.ok (some _) =>
           (RespondOutcome.ok response "success",
            respondLocalUpdate s userId eventId response, true)
         | Except.ok none =>
           (RespondOutcome.ok response "not_updated",
            respondLocalUpdate s userId eventId response, true)
         | Except.error _ =>
           (RespondOutcome.ok response "not_updated",
            respondLocalUpdate s userId eventId response, true)
       else
         (RespondOutcome.ok response "not_updated",
          respondLocalUpdate s userId eventId response, false)) := by
    simp only [List.mem_cons, List.mem_singleton, List.not_mem_nil,
      or_false] at hmem
    simp [respondPOST, heid, hrne, hresp, hev, hatt']
    intro h1 h2 h3
    exfalso
    rcases hmem with h | h | h
    · exact h1 h
    · exact h2 h
    · exact h3 h
  have hstore : (respondPOST s userId eventId response env).2.1 =
      respondLocalUpdate s userId eventId response := by
    rw [hkey]
    by_cases hcond : (strTruthy event.googleEventId &&
        strTruthy (userEmail s userId)) = true
    · rw [if_pos hcond]
      cases env.googleUpdate with
      | error e => rfl
      | ok o => cases o <;> rfl
    · rw [if_neg hcond]
  refine ⟨?_, hstore, ?_, ?_⟩
  · rw [hkey]
    by_cases hcond : (strTruthy event.googleEventId &&
        strTruthy (userEmail s userId)) = true
    · rw [if_pos hcond]
      cases env.googleUpdate with
      | error e => exact ⟨"not_updated", rfl⟩
      | ok o =>
        cases o with
        | none => exact ⟨"not_updated", rfl⟩
        | some u => exact ⟨"success", rfl⟩
    · rw [if_neg hcond]
      exact ⟨"not_updated", rfl⟩
  · intro a0' ha0'
    rw [hstore]
    show (s.attendees.map _).find? _ = _
    rw [find?_attendee_update, ha0', Option.map_some']
  · intro h
    have hcond : (strTruthy event.googleEventId &&
        strTruthy (userEmail s userId)) = false := by
      rcases h with h | h <;> simp [h]
    rw [hkey, if_neg (by simp [hcond])]
    exact ⟨rfl, rfl⟩

/-- A store for the respond scenario: event "e1" never synced
(`googleEventId` = null), attendee "u2" with a known email. -/
def respondStoreW : Store :=
  { users := [{ id := "u2", email := some "u2@x" }],
    credentials := [],
    events := [{ id := "e1", title := "t", description := none, location := none, creatorId := "u1", googleEventId := none }],
    attendees := [{ eventId := "e1", userId := "u2", responseStatus := "PENDING" }] }

/-- The external oracle for the respond scenario (it would throw if it
were ever consulted). -/
def respondEnvW : RespondEnv := { googleUpdate := Except.error () }

/-- Concrete instance of `respondPOST_local_spec`: responding ACCEPTED to
an unsynced event updates the local row, reports "not_updated", and makes
no external call. -/
theorem respondPOST_local_spec_witness :
    (respondPOST respondStoreW "u2" "e1" "ACCEPTED" respondEnvW).1 =
      RespondOutcome.ok "ACCEPTED" "not_updated" ∧
    (respondPOST respondStoreW "u2" "e1" "ACCEPTED" respondEnvW).2.2 =
      false ∧
    (respondPOST respondStoreW "u2" "e1" "ACCEPTED"
        respondEnvW).2.1.attendees.find?
        (fun a => a.eventId == "e1" && a.userId == "u2") =
      some { eventId := "e1", userId := "u2", responseStatus := "ACCEPTED" } := by
  have h := respondPOST_local_spec respondStoreW "u2" "e1" "ACCEPTED"
    respondEnvW
    { id := "e1", title := "t", description := none, location := none, creatorId := "u1", googleEventId := none }
    rfl (by decide) rfl (by decide)
  exact ⟨(h.2.2.2 (Or.inl rfl)).2, (h.2.2.2 (Or.inl rfl)).1,
    h.2.2.1 _ rfl⟩

/-! ## C7: authorization-state validation in the callback -/

/-- State validation fails exactly on: decode failure, falsy userId,
missing or zero timestamp, or a timestamp more than 15 minutes old. -/
theorem validateState_eq_none_iff (decoded : Option StatePayload)
    (now : Int) :
    validateState decoded now = none ↔
      (decoded = none ∨ ∃ st, decoded = some st ∧
        (strFalsy st.userId = true ∨ st.timestamp = none ∨
         st.timestamp = some 0 ∨
         ∃ ts, st.timestamp = some ts ∧ now - ts > 15 * 60 * 1000)) := by
  cases decoded with
  | none => simp [validateState]
  | some st =>
    by_cases hu : strFalsy st.userId = true
    · simp [validateState, hu]
    · have hu' : strFalsy st.userId = false := by
        cases hf : strFalsy st.userId
        · rfl
        · exact absurd hf hu
      obtain ⟨x, hx⟩ : ∃ x, st.userId = some x := by
        cases hxx : st.userId with
        | none => rw [hxx] at hu'; simp [strFalsy, strTruthy] at hu'
        | some x => exact ⟨x, rfl⟩
      cases hts : st.timestamp with
      | none => simp [validateState, hu', hts]
      | some ts =>
        by_cases hz : ts = 0
        · subst hz
          simp [validateState, hu', hts]
        · by_cases hold : now - ts > 15 * 60 * 1000
          · have hv : validateState (some st) now = none := by
              simp [validateState, hu', hts, hz, hold]
              intro h
              exfalso
              omega
            rw [hv]
            constructor
            · intro _
              exact Or.inr ⟨st, rfl,
                Or.inr (Or.inr (Or.inr ⟨ts, hts, hold⟩))⟩
            · intro _
              rfl
          · have hv : validateState (some st) now = st.userId := by
              simp [validateState, hu', hts, hz, hold]
              intro h
              exfalso
              omega
            rw [hv, hx]
            constructor
            · intro hcon
              cases hcon
            · intro hrhs
              exfalso
              rcases hrhs with h | ⟨st', hst', hdis⟩
              · cases h
              · rw [Option.some.injEq] at hst'
                subst hst'
                rcases hdis with h | h | h | ⟨ts', hts', hold'⟩
                · rw [hu'] at h
                  cases h
                · rw [hts] at h
                  cases h
                · rw [hts] at h
                  rw [Option.some.injEq] at h
                  exact hz h
                · rw [hts] at hts'
                  rw [Option.some.injEq] at hts'
                  subst hts'
                  exact hold hold'

/-- C7: with the provider error parameter absent and code/state present,
the callback redirects with the invalid-state error kind — without
exchanging the code and with the store untouched — if and only if the
state fails to decode, its payload lacks a (truthy) userId, lacks a
(truthy) issuedAt timestamp, or its issuedAt lies more than 15 minutes
before the current time. -/
theorem callback_state_validation (s : Store)
    (errorParam codeParam stateParam : Option String) (env : CallbackEnv)
    (herr : strTruthy errorParam = false)
    (hcode : strFalsy codeParam = false)
    (hstate : strFalsy stateParam = false) :
    ((callbackGET s errorParam codeParam stateParam env).1 =
        CallbackOutcome.redirectError "invalid_state" ↔
      (env.decodeState = none ∨ ∃ st, env.decodeState = some st ∧
        (strFalsy st.userId = true ∨ st.timestamp = none ∨
         st.timestamp = some 0 ∨
         ∃ ts, st.timestamp = some ts ∧
           env.now - ts > 15 * 60 * 1000))) ∧
    ((callbackGET s errorParam codeParam stateParam env).1 =
        CallbackOutcome.redirectError "invalid_state" →
      (callbackGET s errorParam codeParam stateParam env).2.1 = s ∧
      (callbackGET s errorParam codeParam stateParam env).2.2 = false) := by
  cases hvs : validateState env.decodeState env.now with
  | none =>
    have h1 : callbackGET s errorParam codeParam stateParam env =
        (CallbackOutcome.redirectError "invalid_state", s, false) := by
      simp [callbackGET, herr, hcode, hstate, hvs]
    constructor
    · rw [h1]
      simp only [true_iff]
      exact (validateState_eq_none_iff _ _).mp hvs
    · intro _
      rw [h1]
      exact ⟨rfl, rfl⟩
  | some uid =>
    have hnot : (callbackGET s errorParam codeParam stateParam env).1 ≠
        CallbackOutcome.redirectError "invalid_state" := by
      simp only [callbackGET, herr, hcode, hstate, hvs]
      cases env.tokenResult with
      | error e => simp
      | ok tokens =>
        by_cases hat : strFalsy tokens.access_token = true
        · simp [hat]
        · have hat' : strFalsy tokens.access_token = false := by
            cases h2 : strFalsy tokens.access_token
            · rfl
            · exact absurd h2 hat
          cases hfu : findUser s uid with
          | none => simp [hat', hfu]
          | some u => simp [hat', hfu]
    constructor
    · constructor
      · intro hcontra
        exact absurd hcontra hnot
      · intro hrhs
        exfalso
        have : validateState env.decodeState env.now = none :=
          (validateState_eq_none_iff _ _).mpr hrhs
        rw [hvs] at this
        cases this
    · intro hcontra
      exact absurd hcontra hnot

/-- An environment whose state payload is well-formed but issued more
than 15 minutes before the current time. -/
def staleStateEnv : CallbackEnv :=
  { now := 900002,
    decodeState := some { userId := some "u1", timestamp := some 1 },
    tokenResult := Except.error () }

/-- Concrete instance of `callback_state_validation`: an otherwise
well-formed state older than 15 minutes is rejected with the
invalid-state kind, with no code exchange and no store change. -/
theorem callback_state_validation_witness :
    (callbackGET emptyStore none (some "c") (some "st") staleStateEnv).1 =
      CallbackOutcome.redirectError "invalid_state" ∧
    (callbackGET emptyStore none (some "c") (some "st")
        staleStateEnv).2.1 = emptyStore ∧
    (callbackGET emptyStore none (some "c") (some "st")
        staleStateEnv).2.2 = false := by
  have h := callback_state_validation emptyStore none (some "c")
    (some "st") staleStateEnv rfl rfl rfl
  have h1 := h.1.mpr (Or.inr ⟨_, rfl,
    Or.inr (Or.inr (Or.inr ⟨1, rfl, by decide⟩))⟩)
  exact ⟨h1, (h.2 h1).1, (h.2 h1).2⟩

/-! ## C10: callback succeeds with an access token alone -/

/-- Appending a fresh credential row after deleting the user's old rows
makes the lookup find exactly the fresh row. -/
theorem find?_filter_append_self (l : List Credential) (u : String)
    (x : Credential) (hx : x.userId = u) :
    ((l.filter (fun c => c.userId != u)) ++ [x]).find?
      (fun c => c.userId == u) = some x := by
  rw [List.find?_append]
  have h1 : (l.filter (fun c => c.userId != u)).find?
      (fun c => c.userId == u) = none := by
    rw [List.find?_eq_none]
    intro a ha
    have := (List.mem_filter.mp ha).2
    simp only [bne_iff_ne] at this
    simp [this]
  rw [h1]
  simp [List.find?, hx]

/-- C10: when the token response carries an access token but no refresh
token and no expiry, the callback still persists a credential row —
with `refreshToken` the empty string and expiry one hour after the
current time — and redirects as connected. -/
theorem callback_connects_without_refresh_token (s : Store)
    (codeParam stateParam : Option String) (env : CallbackEnv)
    (tokens : TokenResponse) (userId : String)
    (hcode : strFalsy codeParam = false)
    (hstate : strFalsy stateParam = false)
    (hvs : validateState env.decodeState env.now = some userId)
    (htok : env.tokenResult = Except.ok tokens)
    (hat : strFalsy tokens.access_token = false)
    (hrt : tokens.refresh_token = none)
    (hexp : tokens.expiry_date = none)
    (huser : (findUser s userId).isSome) :
    (callbackGET s none codeParam stateParam env).1 =
      CallbackOutcome.connected ∧
    (callbackGET s none codeParam stateParam env).2.2 = true ∧
    findCredential (callbackGET s none codeParam stateParam env).2.1
        userId =
      some { userId := userId, accessToken := tokens.access_token.getD "",
             refreshToken := "", expiryDate := env.now + 3600 * 1000 } := by
  obtain ⟨u, hu⟩ := Option.isSome_iff_exists.mp huser
  have hred : callbackGET s none codeParam stateParam env =
      (CallbackOutcome.connected, saveCredentials s userId tokens env.now,
       true) := by
    simp [callbackGET, hcode, hstate, hvs, htok, hat, hu, strTruthy]
  have hsave : saveCredentials s userId tokens env.now =
      { s with credentials :=
          s.credentials.filter (fun c => c.userId != userId)
          ++ [{ userId := userId,
                accessToken := tokens.access_token.getD "",
                refreshToken := "",
                expiryDate := env.now + 3600 * 1000 }] } := by
    simp [saveCredentials, hrt, hexp]
  refine ⟨by rw [hred], by rw [hred], ?_⟩
  rw [hred, hsave]
  exact find?_filter_append_self s.credentials userId _ rfl

/-- The store for the connect scenario: user "u1" exists. -/
def callbackStoreW : Store :=
  { users := [{ id := "u1", email := none }], credentials := [],
    events := [], attendees := [] }

/-- A fresh, valid handshake whose token response has only an access
token. -/
def accessOnlyEnv : CallbackEnv :=
  { now := 500,
    decodeState := some { userId := some "u1", timestamp := some 400 },
    tokenResult := Except.ok { access_token := some "atX", refresh_token := none, expiry_date := none } }

/-- Concrete instance of `callback_connects_without_refresh_token`. -/
theorem callback_connects_without_refresh_token_witness :
    (callbackGET callbackStoreW none (some "c") (some "st")
        accessOnlyEnv).1 = CallbackOutcome.connected ∧
    (callbackGET callbackStoreW none (some "c") (some "st")
        accessOnlyEnv).2.2 = true ∧
    findCredential (callbackGET callbackStoreW none (some "c") (some "st")
        accessOnlyEnv).2.1 "u1" =
      some { userId := "u1", accessToken := "atX", refreshToken := "",
             expiryDate := 500 + 3600 * 1000 } :=
  callback_connects_without_refresh_token callbackStoreW (some "c")
    (some "st") accessOnlyEnv
    { access_token := some "atX", refresh_token := none, expiry_date := none }
    "u1" (by rfl) (by rfl) (by rfl) (by rfl) (by rfl) (by rfl) (by rfl)
    (by rfl)

/-! ## Lemmas about getCalendarClientT and the fan-out loop -/

/-- The userId carried by an `attendeeSync` trace entry. -/
def syncUser : Action → Option String
  | Action.attendeeSync u => some u
  | _ => none

/-- The sequence of attendee-propagation attempts recorded in a trace. -/
def syncAttempts (tr : List Action) : List String := tr.filterMap syncUser

/-- A `getCalendarClient` call leaves at most one `refreshCall` in the
trace. -/
theorem getCalendarClientT_trace (s : Store) (u : String) (n : Int)
    (r : Except Unit RefreshedCreds) :
    (getCalendarClientT s u n r).2 = [] ∨
    (getCalendarClientT s u n r).2 = [Action.refreshCall u] := by
  unfold getCalendarClientT
  cases findCredential s u with
  | none => exact Or.inl rfl
  | some cred =>
    by_cases he : cred.expiryDate < n
    · cases r with
      | error e =>
        right
        simp [he]
      | ok rc =>
        right
        simp [he]
    · left
      simp [he]

/-- A successful `getCalendarClient` call changes at most credential
fields: users, events and attendee rows are untouched, and whether any
user has a credential row is unchanged. -/
theorem getCalendarClientT_ok_frame (s : Store) (u : String) (n : Int)
    (r : Except Unit RefreshedCreds) (s' : Store)
    (h : (getCalendarClientT s u n r).1 = Except.ok s') :
    s'.events = s.events ∧ s'.attendees = s.attendees ∧
    s'.users = s.users ∧
    ∀ v, (findCredential s' v).isSome = (findCredential s v).isSome := by
  unfold getCalendarClientT at h
  cases hc : findCredential s u with
  | none =>
    rw [hc] at h
    simp at h
  | some cred =>
    rw [hc] at h
    by_cases he : cred.expiryDate < n
    · cases r with
      | error e =>
        simp [he] at h
      | ok rc =>
        simp [he] at h
        subst h
        exact ⟨rfl, rfl, rfl,
          fun v => findCredential_refreshPersist_isSome s u v _ _⟩
    · simp [he] at h
      subst h
      exact ⟨rfl, rfl, rfl, fun v => rfl⟩

/-- The fan-out loop never touches event or attendee rows. -/
theorem attendeePropagation_frame (creatorId : String) (gev : GoogleEvent)
    (env : CreateEnv) :
    ∀ (atts : List EventAttendee) (s : Store),
      (attendeePropagation creatorId gev env s atts).1.events = s.events ∧
      (attendeePropagation creatorId gev env s atts).1.attendees =
        s.attendees := by
  intro atts
  induction atts with
  | nil => intro s; exact ⟨rfl, rfl⟩
  | cons a rest ih =>
    intro s
    simp only [attendeePropagation]
    by_cases hcr : (a.userId == creatorId) = true
    · rw [if_pos hcr]
      exact ih s
    · rw [if_neg hcr]
      cases hfc : findCredential s a.userId with
      | none =>
        cases gev.iCalUID <;> exact ih s
      | some cred =>
        cases huid : gev.iCalUID with
        | none => exact ih s
        | some uid =>
          cases hg : getCalendarClientT s a.userId env.now
              (env.refreshResult a.userId) with
          | mk fst snd =>
            cases fst with
            | error e =>
              simp only []
              exact ih s
            | ok s1 =>
              have hframe := getCalendarClientT_ok_frame s a.userId env.now
                (env.refreshResult a.userId) s1 (by rw [hg])
              cases him : env.importResult a.userId with
              | error e =>
                simp only []
                refine ⟨?_, ?_⟩
                · rw [(ih s1).1, hframe.1]
                · rw [(ih s1).2, hframe.2.1]
              | ok o =>
                simp only []
                refine ⟨?_, ?_⟩
                · rw [(ih s1).1, hframe.1]
                · rw [(ih s1).2, hframe.2.1]

/-- `syncAttempts` distributes over append. -/
theorem syncAttempts_append (l1 l2 : List Action) :
    syncAttempts (l1 ++ l2) = syncAttempts l1 ++ syncAttempts l2 :=
  List.filterMap_append l1 l2 syncUser

/-- An `attendeeSync` head contributes its user to `syncAttempts`. -/
theorem syncAttempts_cons_sync (u : String) (l : List Action) :
    syncAttempts (Action.attendeeSync u :: l) = u :: syncAttempts l := by
  simp [syncAttempts, List.filterMap_cons, syncUser]

/-- The fan-out loop never writes an external id back. -/
theorem attendeePropagation_no_write (creatorId : String)
    (gev : GoogleEvent) (env : CreateEnv) (eid gid : String) :
    ∀ (atts : List EventAttendee) (s : Store),
      Action.writeExternalId eid gid ∉
        (attendeePropagation creatorId gev env s atts).2 := by
  intro atts
  induction atts with
  | nil =>
    intro s
    simp [attendeePropagation]
  | cons a rest ih =>
    intro s
    simp only [attendeePropagation]
    by_cases hcr : (a.userId == creatorId) = true
    · rw [if_pos hcr]
      exact ih s
    · rw [if_neg hcr]
      cases hfc : findCredential s a.userId with
      | none => cases gev.iCalUID <;> exact ih s
      | some cred =>
        cases huid : gev.iCalUID with
        | none => exact ih s
        | some uid =>
          cases hg : getCalendarClientT s a.userId env.now
              (env.refreshResult a.userId) with
          | mk fst snd =>
            have hsnd := getCalendarClientT_trace s a.userId env.now
              (env.refreshResult a.userId)
            rw [hg] at hsnd
            cases fst with
            | error e =>
              rcases hsnd with hs | hs <;> subst hs <;> simp [ih s]
            | ok s1 =>
              cases him : env.importResult a.userId with
              | error e2 =>
                rcases hsnd with hs | hs <;> subst hs <;> simp [ih s1]
              | ok o =>
                rcases hsnd with hs | hs <;> subst hs <;> simp [ih s1]

/-- The propagation attempts of the fan-out loop are exactly the
attendees that are not the organizer and have a credential row, in list
order, provided the organizer-side event carries an `iCalUID`. -/
theorem attendeePropagation_syncAttempts (creatorId : String)
    (gev : GoogleEvent) (env : CreateEnv) (uid : String)
    (huid : gev.iCalUID = some uid) :
    ∀ (atts : List EventAttendee) (s : Store),
      syncAttempts (attendeePropagation creatorId gev env s atts).2 =
        (atts.filter (fun a => a.userId != creatorId &&
          (findCredential s a.userId).isSome)).map
          (fun a => a.userId) := by
  intro atts
  induction atts with
  | nil =>
    intro s
    rfl
  | cons a rest ih =>
    intro s
    simp only [attendeePropagation]
    by_cases hcr : (a.userId == creatorId) = true
    · rw [if_pos hcr]
      have hbne : (a.userId != creatorId) = false := by
        show (!(a.userId == creatorId)) = false
        rw [hcr]
        rfl
      rw [ih s, List.filter_cons]
      simp [hbne]
    · rw [if_neg hcr]
      have hbne : (a.userId != creatorId) = true := by
        show (!(a.userId == creatorId)) = true
        cases hq : (a.userId == creatorId) with
        | false => rfl
        | true => exact absurd hq hcr
      cases hfc : findCredential s a.userId with
      | none =>
        simp only [hfc, huid]
        rw [ih s, List.filter_cons]
        simp [hfc, hbne]
      | some cred =>
        simp only [hfc, huid]
        cases hg : getCalendarClientT s a.userId env.now
            (env.refreshResult a.userId) with
        | mk fst snd =>
          have hsnd := getCalendarClientT_trace s a.userId env.now
            (env.refreshResult a.userId)
          rw [hg] at hsnd
          have hsync_snd : syncAttempts snd = [] := by
            rcases hsnd with h | h <;> subst h <;> rfl
          cases fst with
          | error e =>
            rw [syncAttempts_append, syncAttempts_cons_sync, hsync_snd,
              ih s, List.filter_cons]
            simp [hfc, hbne]
          | ok s1 =>
            have hframe := getCalendarClientT_ok_frame s a.userId env.now
              (env.refreshResult a.userId) s1 (by rw [hg])
            have hfilter : rest.filter (fun b => b.userId != creatorId &&
                  (findCredential s1 b.userId).isSome) =
                rest.filter (fun b => b.userId != creatorId &&
                  (findCredential s b.userId).isSome) := by
              apply List.filter_congr
              intro b _
              rw [hframe.2.2.2 b.userId]
            cases him : env.importResult a.userId with
            | error e2 =>
              rw [syncAttempts_append, syncAttempts_append,
                syncAttempts_cons_sync, hsync_snd, ih s1, hfilter,
                List.filter_cons]
              simp [hfc, hbne, syncAttempts, syncUser]
            | ok o =>
              rw [syncAttempts_append, syncAttempts_append,
                syncAttempts_cons_sync, hsync_snd, ih s1, hfilter,
                List.filter_cons]
              simp [hfc, hbne, syncAttempts, syncUser]

/-- Rewriting `setGoogleEventId` over a store whose events are the old
rows plus the freshly created one: old rows are untouched, the fresh row
gets the external id. -/
theorem setGoogleEventId_events (s2 : Store) (s : Store)
    (creatorId : String) (input : EventInput) (gid : String)
    (hev : s2.events = s.events ++ [newEventOf creatorId input])
    (hfresh : ∀ e ∈ s.events, e.id ≠ input.id) :
    (setGoogleEventId s2 input.id gid).events =
      s.events ++
        [{ newEventOf creatorId input with googleEventId := some gid }] := by
  show s2.events.map _ = _
  rw [hev, List.map_append]
  congr 1
  · conv_rhs => rw [← List.map_id s.events]
    apply List.map_congr_left
    intro e he
    have hne : (e.id == input.id) = false :=
      beq_eq_false_iff_ne.mpr (hfresh e he)
    simp [hne]
  · simp [newEventOf]

/-! ## C1: local creation is authoritative and never rolled back -/

/-- C1: for every environment — even one in which the organizer has no
credential, the organizer client or provider insert throws, and every
attendee import throws — `createCalendarEvent` returns the locally
created event (with its attendee rows) as a success; the final store
still contains every pre-existing event and attendee row unchanged plus
the new rows, the new attendee rows exactly as created, and the new event
row at most updated with an external id — nothing is deleted or
reverted. -/
theorem createCalendarEvent_local_authoritative (s : Store)
    (creatorId : String) (input : EventInput) (env : CreateEnv)
    (hfresh : ∀ e ∈ s.events, e.id ≠ input.id) :
    (createCalendarEvent s creatorId input env).result =
      Except.ok (newEventOf creatorId input, newAttendeesOf input) ∧
    (createCalendarEvent s creatorId input env).store.attendees =
      s.attendees ++ newAttendeesOf input ∧
    ∃ g : Option String,
      (createCalendarEvent s creatorId input env).store.events =
        s.events ++
          [{ newEventOf creatorId input with googleEventId := g }] := by
  cases hfc : findCredential (storeAfterCreate s creatorId input)
      creatorId with
  | none =>
    have hred : createCalendarEvent s creatorId input env =
        ⟨Except.ok (newEventOf creatorId input, newAttendeesOf input),
         storeAfterCreate s creatorId input,
         [Action.localCreate input.id]⟩ := by
      simp [createCalendarEvent, hfc]
    rw [hred]
    exact ⟨rfl, rfl, none, rfl⟩
  | some cred =>
    cases hg : getCalendarClientT (storeAfterCreate s creatorId input)
        creatorId env.now (env.refreshResult creatorId) with
    | mk fst snd =>
      cases fst with
      | error e =>
        have hred : createCalendarEvent s creatorId input env =
            ⟨Except.ok (newEventOf creatorId input, newAttendeesOf input),
             storeAfterCreate s creatorId input,
             [Action.localCreate input.id] ++ snd⟩ := by
          simp [createCalendarEvent, hfc, hg]
        rw [hred]
        exact ⟨rfl, rfl, none, rfl⟩
      | ok s2 =>
        have hframe := getCalendarClientT_ok_frame
          (storeAfterCreate s creatorId input) creatorId env.now
          (env.refreshResult creatorId) s2 (by rw [hg])
        have hs2ev : s2.events = s.events ++ [newEventOf creatorId input] :=
          hframe.1
        have hs2att : s2.attendees = s.attendees ++ newAttendeesOf input :=
          hframe.2.1
        cases hins : env.insertResult with
        | error e =>
          have hred : createCalendarEvent s creatorId input env =
              ⟨Except.ok (newEventOf creatorId input,
                 newAttendeesOf input), s2,
               [Action.localCreate input.id] ++ snd ++
                 [Action.providerInsert]⟩ := by
            simp [createCalendarEvent, hfc, hg, hins]
          rw [hred]
          refine ⟨rfl, hs2att, none, ?_⟩
          rw [hs2ev]
          rfl
        | ok gev =>
          cases hgid : gev.id with
          | none =>
            have hred : createCalendarEvent s creatorId input env =
                ⟨Except.ok (newEventOf creatorId input,
                   newAttendeesOf input),
                 (attendeePropagation creatorId gev env s2
                   (newAttendeesOf input)).1,
                 [Action.localCreate input.id] ++ snd ++
                   [Action.providerInsert] ++
                   (attendeePropagation creatorId gev env s2
                     (newAttendeesOf input)).2⟩ := by
              simp [createCalendarEvent, hfc, hg, hins, hgid]
            rw [hred]
            have hprop := attendeePropagation_frame creatorId gev env
              (newAttendeesOf input) s2
            refine ⟨rfl, ?_, none, ?_⟩
            · rw [hprop.2, hs2att]
            · rw [hprop.1, hs2ev]
              rfl
          | some gid =>
            have hred : createCalendarEvent s creatorId input env =
                ⟨Except.ok (newEventOf creatorId input,
                   newAttendeesOf input),
                 (attendeePropagation creatorId gev env
                   (setGoogleEventId s2 input.id gid)
                   (newAttendeesOf input)).1,
                 [Action.localCreate input.id] ++ snd ++
                   [Action.providerInsert] ++
                   [Action.writeExternalId input.id gid] ++
                   (attendeePropagation creatorId gev env
                     (setGoogleEventId s2 input.id gid)
                     (newAttendeesOf input)).2⟩ := by
              simp [createCalendarEvent, hfc, hg, hins, hgid]
            rw [hred]
            have hprop := attendeePropagation_frame creatorId gev env
              (newAttendeesOf input) (setGoogleEventId s2 input.id gid)
            refine ⟨rfl, ?_, some gid, ?_⟩
            · rw [hprop.2]
              show s2.attendees = _
              rw [hs2att]
            · rw [hprop.1]
              exact setGoogleEventId_events s2 s creatorId input gid
                hs2ev hfresh

/-- Concrete instance of `createCalendarEvent_local_authoritative` on a
fresh store where every external call fails. -/
theorem createCalendarEvent_local_authoritative_witness :
    (createCalendarEvent oneCredStore "u1" demoInput demoEnv).result =
      Except.ok (newEventOf "u1" demoInput, newAttendeesOf demoInput) ∧
    (createCalendarEvent oneCredStore "u1" demoInput demoEnv).store.attendees
      = oneCredStore.attendees ++ newAttendeesOf demoInput ∧
    ∃ g : Option String,
      (createCalendarEvent oneCredStore "u1" demoInput
          demoEnv).store.events =
        oneCredStore.events ++
          [{ newEventOf "u1" demoInput with googleEventId := g }] :=
  createCalendarEvent_local_authoritative oneCredStore "u1" demoInput
    demoEnv (by intro e he; cases he)

/-! ## C2: local create precedes external calls; id written only after -/

/-- C2: in every execution of `createCalendarEvent`, the trace starts
with the local event creation — so the local row exists before any
provider call — and any write of an external id to the local record
occurs only when the provider insert returned successfully with that id,
and strictly after the insert in the trace. -/
theorem createCalendarEvent_ordering (s : Store) (creatorId : String)
    (input : EventInput) (env : CreateEnv) :
    (createCalendarEvent s creatorId input env).trace.head? =
      some (Action.localCreate input.id) ∧
    ∀ gid : String, Action.writeExternalId input.id gid ∈
        (createCalendarEvent s creatorId input env).trace →
      ∃ gev pre suf, env.insertResult = Except.ok gev ∧
        gev.id = some gid ∧
        (createCalendarEvent s creatorId input env).trace =
          pre ++ Action.providerInsert :: suf ∧
        Action.writeExternalId input.id gid ∉ pre ∧
        Action.writeExternalId input.id gid ∈ suf := by
  cases hfc : findCredential (storeAfterCreate s creatorId input)
      creatorId with
  | none =>
    have hred : createCalendarEvent s creatorId input env =
        ⟨Except.ok (newEventOf creatorId input, newAttendeesOf input),
         storeAfterCreate s creatorId input,
         [Action.localCreate input.id]⟩ := by
      simp [createCalendarEvent, hfc]
    rw [hred]
    refine ⟨rfl, ?_⟩
    intro gid hmem
    simp at hmem
  | some cred =>
    cases hg : getCalendarClientT (storeAfterCreate s creatorId input)
        creatorId env.now (env.refreshResult creatorId) with
    | mk fst snd =>
      have hsnd := getCalendarClientT_trace
        (storeAfterCreate s creatorId input) creatorId env.now
        (env.refreshResult creatorId)
      rw [hg] at hsnd
      simp only [] at hsnd
      cases fst with
      | error e =>
        have hred : createCalendarEvent s creatorId input env =
            ⟨Except.ok (newEventOf creatorId input, newAttendeesOf input),
             storeAfterCreate s creatorId input,
             [Action.localCreate input.id] ++ snd⟩ := by
          simp [createCalendarEvent, hfc, hg]
        rw [hred]
        constructor
        · rcases hsnd with h | h <;> subst h <;> rfl
        · intro gid hmem
          rcases hsnd with h | h <;> subst h <;> simp at hmem
      | ok s2 =>
        cases hins : env.insertResult with
        | error e =>
          have hred : createCalendarEvent s creatorId input env =
              ⟨Except.ok (newEventOf creatorId input,
                 newAttendeesOf input), s2,
               [Action.localCreate input.id] ++ snd ++
                 [Action.providerInsert]⟩ := by
            simp [createCalendarEvent, hfc, hg, hins]
          rw [hred]
          constructor
          · rcases hsnd with h | h <;> subst h <;> rfl
          · intro gid hmem
            rcases hsnd with h | h <;> subst h <;> simp at hmem
        | ok gev =>
          cases hgid : gev.id with
          | none =>
            have hred : createCalendarEvent s creatorId input env =
                ⟨Except.ok (newEventOf creatorId input,
                   newAttendeesOf input),
                 (attendeePropagation creatorId gev env s2
                   (newAttendeesOf input)).1,
                 [Action.localCreate input.id] ++ snd ++
                   [Action.providerInsert] ++
                   (attendeePropagation creatorId gev env s2
                     (newAttendeesOf input)).2⟩ := by
              simp [createCalendarEvent, hfc, hg, hins, hgid]
            rw [hred]
            constructor
            · rcases hsnd with h | h <;> subst h <;> rfl
            · intro gid hmem
              have hnw := attendeePropagation_no_write creatorId gev env
                input.id gid (newAttendeesOf input) s2
              rcases hsnd with h | h <;> subst h <;> simp [hnw] at hmem
          | some gid' =>
            have hred : createCalendarEvent s creatorId input env =
                ⟨Except.ok (newEventOf creatorId input,
                   newAttendeesOf input),
                 (attendeePropagation creatorId gev env
                   (setGoogleEventId s2 input.id gid')
                   (newAttendeesOf input)).1,
                 [Action.localCreate input.id] ++ snd ++
                   [Action.providerInsert] ++
                   [Action.writeExternalId input.id gid'] ++
                   (attendeePropagation creatorId gev env
                     (setGoogleEventId s2 input.id gid')
                     (newAttendeesOf input)).2⟩ := by
              simp [createCalendarEvent, hfc, hg, hins, hgid]
            rw [hred]
            constructor
            · rcases hsnd with h | h <;> subst h <;> rfl
            · intro gid hmem
              have hnw := attendeePropagation_no_write creatorId gev env
                input.id gid (newAttendeesOf input)
                (setGoogleEventId s2 input.id gid')
              have hgg : gid = gid' := by
                rcases hsnd with h | h <;> subst h <;>
                  simp [hnw] at hmem <;> exact hmem
              subst hgg
              refine ⟨gev, [Action.localCreate input.id] ++ snd,
                Action.writeExternalId input.id gid ::
                  (attendeePropagation creatorId gev env
                    (setGoogleEventId s2 input.id gid)
                    (newAttendeesOf input)).2,
                rfl, hgid, ?_, ?_, ?_⟩
              · simp [List.append_assoc]
              · rcases hsnd with h | h <;> subst h <;> simp
              · simp

/-! ## C3: fan-out exactness and failure isolation -/

/-- With a credential present and a refresh that succeeds when needed,
`getCalendarClient` succeeds. -/
theorem getCalendarClientT_ok_exists (s : Store) (u : String) (n : Int)
    (r : Except Unit RefreshedCreds) (cred : Credential)
    (hc : findCredential s u = some cred)
    (hr : cred.expiryDate < n → ∃ rc, r = Except.ok rc) :
    ∃ s2, (getCalendarClientT s u n r).1 = Except.ok s2 := by
  unfold getCalendarClientT
  rw [hc]
  by_cases he : cred.expiryDate < n
  · obtain ⟨rc, hrc⟩ := hr he
    subst hrc
    refine ⟨refreshPersist s u rc.access_token rc.expiry_date, ?_⟩
    simp [he]
  · refine ⟨s, ?_⟩
    simp [he]

/-- Attendee rows built from a list of user ids, filtered on a per-user
predicate, project back to the filtered ids. -/
theorem attendeeRows_filter_map (eid creatorId : String)
    (q : String → Bool) :
    ∀ ids : List String,
      (((ids.map (fun userId =>
          ({ eventId := eid, userId := userId,
             responseStatus := "PENDING" } : EventAttendee))).filter
          (fun a => a.userId != creatorId && q a.userId)).map
        (fun a => a.userId)) =
        ids.filter (fun u => u != creatorId && q u) := by
  intro ids
  induction ids with
  | nil => rfl
  | cons i rest ih =>
    simp only [List.map_cons, List.filter_cons]
    by_cases hq : (i != creatorId && q i) = true
    · rw [if_pos hq, if_pos hq, List.map_cons, ih]
    · rw [if_neg hq, if_neg hq]
      exact ih

/-- The created attendee rows filtered on a per-user predicate project
back to the filtered attendee ids. -/
theorem newAttendees_filter_map (input : EventInput) (creatorId : String)
    (q : String → Bool) :
    ((newAttendeesOf input).filter
        (fun a => a.userId != creatorId && q a.userId)).map
      (fun a => a.userId) =
      input.attendeeIds.filter (fun u => u != creatorId && q u) :=
  attendeeRows_filter_map input.id creatorId q input.attendeeIds

/-- C3: when the organizer is connected, their client is obtainable, and
the provider insert succeeded with a cross-calendar `iCalUID`, the
propagation attempts of `createCalendarEvent` are exactly the attendee
ids that differ from the organizer and have a credential row — in
particular attendees without a credential row get zero attempts — for
EVERY import/refresh failure pattern of the environment (one attendee's
failure never suppresses another attendee's attempt), and the creation
still returns the new event as a success. -/
theorem createCalendarEvent_fanout (s : Store) (creatorId : String)
    (input : EventInput) (env : CreateEnv) (cred : Credential)
    (gev : GoogleEvent) (uid : String)
    (hcred : findCredential s creatorId = some cred)
    (hclient : cred.expiryDate < env.now →
      ∃ rc, env.refreshResult creatorId = Except.ok rc)
    (hins : env.insertResult = Except.ok gev)
    (huid : gev.iCalUID = some uid) :
    (createCalendarEvent s creatorId input env).result =
      Except.ok (newEventOf creatorId input, newAttendeesOf input) ∧
    syncAttempts (createCalendarEvent s creatorId input env).trace =
      input.attendeeIds.filter (fun u =>
        u != creatorId && (findCredential s u).isSome) := by
  have hc1 : findCredential (storeAfterCreate s creatorId input)
      creatorId = some cred := hcred
  obtain ⟨s2, hok⟩ := getCalendarClientT_ok_exists
    (storeAfterCreate s creatorId input) creatorId env.now
    (env.refreshResult creatorId) cred hc1 hclient
  cases hg : getCalendarClientT (storeAfterCreate s creatorId input)
      creatorId env.now (env.refreshResult creatorId) with
  | mk fst snd =>
    rw [hg] at hok
    have hfst : fst = Except.ok s2 := hok
    subst hfst
    have hsnd := getCalendarClientT_trace
      (storeAfterCreate s creatorId input) creatorId env.now
      (env.refreshResult creatorId)
    rw [hg] at hsnd
    have hsnd' : snd = [] ∨ snd = [Action.refreshCall creatorId] := hsnd
    have hframe := getCalendarClientT_ok_frame
      (storeAfterCreate s creatorId input) creatorId env.now
      (env.refreshResult creatorId) s2 (by rw [hg])
    have hfeq : ∀ v, (findCredential s2 v).isSome =
        (findCredential s v).isSome := fun v => hframe.2.2.2 v
    cases hgid : gev.id with
    | none =>
      have hred : createCalendarEvent s creatorId input env =
          ⟨Except.ok (newEventOf creatorId input, newAttendeesOf input),
           (attendeePropagation creatorId gev env s2
             (newAttendeesOf input)).1,
           [Action.localCreate input.id] ++ snd ++
             [Action.providerInsert] ++
             (attendeePropagation creatorId gev env s2
               (newAttendeesOf input)).2⟩ := by
        simp [createCalendarEvent, hc1, hg, hins, hgid]
      rw [hred]
      refine ⟨rfl, ?_⟩
      have hloop := attendeePropagation_syncAttempts creatorId gev env
        uid huid (newAttendeesOf input) s2
      have hpre : syncAttempts ([Action.localCreate input.id] ++ snd ++
          [Action.providerInsert]) = [] := by
        rcases hsnd' with h | h <;> subst h <;> rfl
      show syncAttempts (([Action.localCreate input.id] ++ snd ++
          [Action.providerInsert]) ++ _) = _
      rw [syncAttempts_append, hpre, hloop]
      have hfilters : (newAttendeesOf input).filter
            (fun a => a.userId != creatorId &&
              (findCredential s2 a.userId).isSome) =
          (newAttendeesOf input).filter
            (fun a => a.userId != creatorId &&
              (findCredential s a.userId).isSome) := by
        apply List.filter_congr
        intro a _
        rw [hfeq a.userId]
      rw [hfilters,
        newAttendees_filter_map input creatorId
          (fun u => (findCredential s u).isSome)]
      simp
    | some gid =>
      have hred : createCalendarEvent s creatorId input env =
          ⟨Except.ok (newEventOf creatorId input, newAttendeesOf input),
           (attendeePropagation creatorId gev env
             (setGoogleEventId s2 input.id gid)
             (newAttendeesOf input)).1,
           [Action.localCreate input.id] ++ snd ++
             [Action.providerInsert] ++
             [Action.writeExternalId input.id gid] ++
             (attendeePropagation creatorId gev env
               (setGoogleEventId s2 input.id gid)
               (newAttendeesOf input)).2⟩ := by
        simp [createCalendarEvent, hc1, hg, hins, hgid]
      rw [hred]
      refine ⟨rfl, ?_⟩
      have hloop := attendeePropagation_syncAttempts creatorId gev env
        uid huid (newAttendeesOf input)
        (setGoogleEventId s2 input.id gid)
      have hfeq3 : ∀ v, (findCredential
            (setGoogleEventId s2 input.id gid) v).isSome =
          (findCredential s v).isSome := fun v => hfeq v
      have hpre : syncAttempts ([Action.localCreate input.id] ++ snd ++
          [Action.providerInsert] ++
          [Action.writeExternalId input.id gid]) = [] := by
        rcases hsnd' with h | h <;> subst h <;> rfl
      show syncAttempts (([Action.localCreate input.id] ++ snd ++
          [Action.providerInsert] ++
          [Action.writeExternalId input.id gid]) ++ _) = _
      rw [syncAttempts_append, hpre, hloop]
      have hfilters : (newAttendeesOf input).filter
            (fun a => a.userId != creatorId &&
              (findCredential (setGoogleEventId s2 input.id gid)
                a.userId).isSome) =
          (newAttendeesOf input).filter
            (fun a => a.userId != creatorId &&
              (findCredential s a.userId).isSome) := by
        apply List.filter_congr
        intro a _
        rw [hfeq3 a.userId]
      rw [hfilters,
        newAttendees_filter_map input creatorId
          (fun u => (findCredential s u).isSome)]
      simp

/-- A store where the organizer "org" and attendees "a1", "a2" are
connected while "a3" is not. -/
def fanoutStoreW : Store :=
  { users := [],
    credentials := [{ userId := "org", accessToken := "ato", refreshToken := "rto", expiryDate := 10 },
                    { userId := "a1", accessToken := "at1", refreshToken := "rt1", expiryDate := 10 },
                    { userId := "a2", accessToken := "at2", refreshToken := "rt2", expiryDate := 10 }],
    events := [],
    attendees := [] }

/-- Concrete instance of `createCalendarEvent_fanout`: three attendees,
two connected, every attendee import fails — exactly two propagation
attempts, zero for the unconnected attendee, and creation succeeds. -/
theorem createCalendarEvent_fanout_witness :
    (createCalendarEvent fanoutStoreW "org" demoInput demoEnv).result =
      Except.ok (newEventOf "org" demoInput, newAttendeesOf demoInput) ∧
    syncAttempts
        (createCalendarEvent fanoutStoreW "org" demoInput demoEnv).trace =
      ["a1", "a2"] := by
  have h := createCalendarEvent_fanout fanoutStoreW "org" demoInput
    demoEnv
    { userId := "org", accessToken := "ato", refreshToken := "rto", expiryDate := 10 }
    { id := some "g1", iCalUID := some "ical1" } "ical1"
    rfl (fun hlt => absurd hlt (by decide)) rfl rfl
  refine ⟨h.1, ?_⟩
  rw [h.2]
  rfl

end CalendarSync
